import Mathlib

/-!
Verification of the wtvr3d scene-graph / rendering core.

Shallow embedding of the Rust sources into Lean 4.  Field values that the
source keeps as `f32` are modelled as exact rationals (`ℚ`); WebGL handles
(locations, programs) are modelled symbolically; fallible operations return
`Except`/`Option`.  Each section names the Rust file it embeds.
-/

namespace Wtvr3d

/-! ### Math primitives (external `nalgebra` dependency)

Vectors, quaternions and 4x4 matrices.  The spec treats the math layer as a
standard linear-algebra library; we embed exactly the operations the core
calls: non-uniform scaling matrix, isometry-to-homogeneous, matrix product. -/

structure Vec3 where
  x : ℚ
  y : ℚ
  z : ℚ
deriving DecidableEq, Repr

/-- Componentwise sum, `nalgebra` vector addition. -/
def Vec3.add (a b : Vec3) : Vec3 := ⟨a.x + b.x, a.y + b.y, a.z + b.z⟩

/-- Scalar multiplication `v * k`, `nalgebra` vector-by-scalar product. -/
def Vec3.smul (a : Vec3) (k : ℚ) : Vec3 := ⟨a.x * k, a.y * k, a.z * k⟩

structure Vec4 where
  x : ℚ
  y : ℚ
  z : ℚ
  w : ℚ
deriving DecidableEq, Repr

/-- Unit quaternion (w,x,y,z).  The source builds these with
`UnitQuaternion::from_euler_angles`, an external trigonometric conversion;
we carry the resulting quaternion directly. -/
structure Quat where
  w : ℚ
  x : ℚ
  y : ℚ
  z : ℚ
deriving DecidableEq, Repr

/-- Identity rotation, `UnitQuaternion::identity()` (Euler angles 0,0,0). -/
def Quat.id : Quat := ⟨1, 0, 0, 0⟩

/-- Row-major 4x4 matrix. -/
structure Mat4 where
  a00 : ℚ
  a01 : ℚ
  a02 : ℚ
  a03 : ℚ
  a10 : ℚ
  a11 : ℚ
  a12 : ℚ
  a13 : ℚ
  a20 : ℚ
  a21 : ℚ
  a22 : ℚ
  a23 : ℚ
  a30 : ℚ
  a31 : ℚ
  a32 : ℚ
  a33 : ℚ
deriving DecidableEq, Repr

/-- `Matrix4::identity()`. -/
def Mat4.identity : Mat4 :=
  ⟨1, 0, 0, 0,
   0, 1, 0, 0,
   0, 0, 1, 0,
   0, 0, 0, 1⟩

/-- Matrix product `a * b`. -/
def Mat4.mul (a b : Mat4) : Mat4 :=
  ⟨a.a00 * b.a00 + a.a01 * b.a10 + a.a02 * b.a20 + a.a03 * b.a30,
   a.a00 * b.a01 + a.a01 * b.a11 + a.a02 * b.a21 + a.a03 * b.a31,
   a.a00 * b.a02 + a.a01 * b.a12 + a.a02 * b.a22 + a.a03 * b.a32,
   a.a00 * b.a03 + a.a01 * b.a13 + a.a02 * b.a23 + a.a03 * b.a33,
   a.a10 * b.a00 + a.a11 * b.a10 + a.a12 * b.a20 + a.a13 * b.a30,
   a.a10 * b.a01 + a.a11 * b.a11 + a.a12 * b.a21 + a.a13 * b.a31,
   a.a10 * b.a02 + a.a11 * b.a12 + a.a12 * b.a22 + a.a13 * b.a32,
   a.a10 * b.a03 + a.a11 * b.a13 + a.a12 * b.a23 + a.a13 * b.a33,
   a.a20 * b.a00 + a.a21 * b.a10 + a.a22 * b.a20 + a.a23 * b.a30,
   a.a20 * b.a01 + a.a21 * b.a11 + a.a22 * b.a21 + a.a23 * b.a31,
   a.a20 * b.a02 + a.a21 * b.a12 + a.a22 * b.a22 + a.a23 * b.a32,
   a.a20 * b.a03 + a.a21 * b.a13 + a.a22 * b.a23 + a.a23 * b.a33,
   a.a30 * b.a00 + a.a31 * b.a10 + a.a32 * b.a20 + a.a33 * b.a30,
   a.a30 * b.a01 + a.a31 * b.a11 + a.a32 * b.a21 + a.a33 * b.a31,
   a.a30 * b.a02 + a.a31 * b.a12 + a.a32 * b.a22 + a.a33 * b.a32,
   a.a30 * b.a03 + a.a31 * b.a13 + a.a32 * b.a23 + a.a33 * b.a33⟩

/-- Matrix-vector product `m * v` on homogeneous 4-vectors. -/
def Mat4.mulVec4 (m : Mat4) (v : Vec4) : Vec4 :=
  ⟨m.a00 * v.x + m.a01 * v.y + m.a02 * v.z + m.a03 * v.w,
   m.a10 * v.x + m.a11 * v.y + m.a12 * v.z + m.a13 * v.w,
   m.a20 * v.x + m.a21 * v.y + m.a22 * v.z + m.a23 * v.w,
   m.a30 * v.x + m.a31 * v.y + m.a32 * v.z + m.a33 * v.w⟩

/-- `Matrix4::new_nonuniform_scaling(&s)`: diagonal scaling matrix. -/
def scalingMatrix (s : Vec3) : Mat4 :=
  ⟨s.x, 0, 0, 0,
   0, s.y, 0, 0,
   0, 0, s.z, 0,
   0, 0, 0, 1⟩

/-- `Isometry3::from_parts(t, q).to_homogeneous()`: homogeneous matrix with
the rotation block of the unit quaternion `q` and translation column `t`
(standard unit-quaternion-to-rotation-matrix formula used by `nalgebra`). -/
def isometryToHomogeneous (t : Vec3) (q : Quat) : Mat4 :=
  ⟨1 - 2 * (q.y * q.y + q.z * q.z), 2 * (q.x * q.y - q.z * q.w),
     2 * (q.x * q.z + q.y * q.w), t.x,
   2 * (q.x * q.y + q.z * q.w), 1 - 2 * (q.x * q.x + q.z * q.z),
     2 * (q.y * q.z - q.x * q.w), t.y,
   2 * (q.x * q.z - q.y * q.w), 2 * (q.y * q.z + q.x * q.w),
     1 - 2 * (q.x * q.x + q.y * q.y), t.z,
   0, 0, 0, 1⟩

/-! ### `src/component/transform.rs` — the `Transform` component -/

/-- Embedding of `struct Transform` (ECS variant): local TRS, cached world
matrix, and the inner dirty flag. -/
structure Transform where
  local_translation : Vec3
  local_rotation : Quat
  local_scale : Vec3
  world_matrix : Mat4
  dirty : Bool
deriving DecidableEq, Repr

namespace Transform

/-- `Transform::new`: the world matrix starts at identity and the transform
starts dirty.  (The source converts Euler angles to a quaternion through the
external `nalgebra` call; we take the quaternion.) -/
def new (t : Vec3) (r : Quat) (s : Vec3) : Transform :=
  ⟨t, r, s, Mat4.identity, true⟩

/-- `Transform::set_translation`. -/
def set_translation (tr : Transform) (v : Vec3) : Transform :=
  { tr with local_translation := v, dirty := true }

/-- `Transform::set_rotation` (Euler-angle conversion done by the external
math library; we receive the quaternion). -/
def set_rotation (tr : Transform) (q : Quat) : Transform :=
  { tr with local_rotation := q, dirty := true }

/-- `Transform::set_scale`. -/
def set_scale (tr : Transform) (v : Vec3) : Transform :=
  { tr with local_scale := v, dirty := true }

/-- The local matrix `isometry.to_homogeneous() * scale_matrix` computed
inside `refresh_world_matrix`. -/
def localMatrix (tr : Transform) : Mat4 :=
  (isometryToHomogeneous tr.local_translation tr.local_rotation).mul
    (scalingMatrix tr.local_scale)

/-- `Transform::refresh_world_matrix`. -/
def refresh_world_matrix (tr : Transform) (parent_world_matrix : Option Mat4) :
    Transform :=
  let local_matrix := tr.localMatrix
  match parent_world_matrix with
  | some parent_matrix =>
      { tr with world_matrix := parent_matrix.mul local_matrix, dirty := false }
  | none =>
      { tr with world_matrix := local_matrix, dirty := false }

/-- `Transform::get_world_matrix`: an error on a dirty transform, the cached
matrix otherwise. -/
def get_world_matrix (tr : Transform) : Except String Mat4 :=
  if tr.dirty then
    Except.error "Trying to get world matrix while it is dirty!"
  else
    Except.ok tr.world_matrix

end Transform

/-! ### `src/component/light.rs` and `src/system/lighting_system.rs` -/

/-- Embedding of `struct Light`. -/
structure Light where
  color : Vec3
  intensity : ℚ
  attenuation : ℚ
deriving DecidableEq, Repr

/-- Embedding of `struct Cone`. -/
structure Cone where
  blend : ℚ
  angle : ℚ
deriving DecidableEq, Repr

/-- One enabled light-bearing entity as seen by `LightingSystem::run`: the
`Light` component plus the optional `Direction`, `Transform` and `Cone`
components fetched with `storage.get(entity)`.  The `Transform` is carried
as its world matrix, which is all the system reads from it. -/
structure LightEntity where
  light : Light
  direction : Option Vec3
  transform : Option Mat4
  cone : Option Cone
deriving DecidableEq, Repr

/-- Embedding of `struct LightRepository` (`src/renderer/light_repository.rs`). -/
structure LightRepository where
  ambiant : Option Light
  directional : List (Light × Vec3)
  point : List (Light × Vec3)
  spot : List (Light × Vec3 × Vec3 × Cone)
deriving DecidableEq, Repr

def LightRepository.empty : LightRepository := ⟨none, [], [], []⟩

/-- Which collection (if any) of the repository an entity is routed to by the
`if let` chain in `LightingSystem::run`.  `skipped` is the fall-through case
in which no branch of the chain matches and the entity is dropped. -/
inductive LightClass where
  | directional
  | point
  | spot
  | ambient
  | skipped
deriving DecidableEq, Repr

/-- The branch conditions of the `if let` chain of `LightingSystem::run`,
in source order. -/
def classifyLight (e : LightEntity) : LightClass :=
  if e.direction.isSome && e.cone.isNone then
    LightClass.directional
  else if e.transform.isSome && e.cone.isNone && e.direction.isNone then
    LightClass.point
  else if e.direction.isSome && e.cone.isSome && e.transform.isSome then
    LightClass.spot
  else if e.transform.isNone && e.cone.isNone && e.direction.isNone then
    LightClass.ambient
  else
    LightClass.skipped

/-- Loop state of `LightingSystem::run`: the repository under construction,
the ambient accumulator and the `some_ambiant` flag. -/
structure LightAccum where
  repo : LightRepository
  ambiant : Light
  some_ambiant : Bool
deriving DecidableEq, Repr

/-- World position `transform.get_world_matrix() * (0,0,0,1)` truncated to
its xyz part, as computed for point and spot lights. -/
def worldPositionOf (m : Mat4) : Vec3 :=
  let world_position := m.mulVec4 ⟨0, 0, 0, 1⟩
  ⟨world_position.x, world_position.y, world_position.z⟩

/-- The body of the entity loop of `LightingSystem::run`, one entity. -/
def lightStep (acc : LightAccum) (e : LightEntity) : LightAccum :=
  match e.direction, e.cone with
  | some direction, none =>
      { acc with repo :=
          { acc.repo with directional :=
              acc.repo.directional ++ [(e.light, direction)] } }
  | _, _ =>
    match e.transform, e.cone, e.direction with
    | some transform, none, none =>
        { acc with repo :=
            { acc.repo with point :=
                acc.repo.point ++ [(e.light, worldPositionOf transform)] } }
    | _, _, _ =>
      match e.direction, e.cone, e.transform with
      | some direction, some cone, some transform =>
          { acc with repo :=
              { acc.repo with spot :=
                  acc.repo.spot ++
                    [(e.light, worldPositionOf transform, direction, cone)] } }
      | _, _, _ =>
        match e.transform, e.cone, e.direction with
        | none, none, none =>
            { acc with
              some_ambiant := true,
              ambiant :=
                { color :=
                    (acc.ambiant.color.smul acc.ambiant.intensity).add
                      (e.light.color.smul e.light.intensity),
                  intensity := acc.ambiant.intensity + e.light.intensity,
                  attenuation := acc.ambiant.attenuation } }
        | _, _, _ => acc

/-- `LightingSystem::run`: clears the repository, folds the entity loop over
the (join-ordered) entity list, then installs the merged ambient light if at
least one ambient source was seen. -/
def LightingSystem.run (entities : List LightEntity) : LightRepository :=
  let init : LightAccum :=
    ⟨LightRepository.empty, ⟨⟨0, 0, 0⟩, 0, 0⟩, false⟩
  let final := entities.foldl lightStep init
  if final.some_ambiant then
    { final.repo with ambiant := some final.ambiant }
  else
    final.repo

/-! ### `src/renderer/uniform.rs` — vector-array flattening (C5)

The three `impl UniformValue for &[VectorN<f32>]` bodies are identical up to
the component count: they build an empty `Vec<f32>` and, for each vector,
call `vec.splice(self.len()..self.len(), vector.as_slice())`.  `Vec::splice`
panics when the given range is not within the bounds of the vector; the
panic is modelled as `none`. -/

structure Vec2 where
  x : ℚ
  y : ℚ
deriving DecidableEq, Repr

/-- `Vector2::as_slice()`. -/
def Vec2.toComponents (v : Vec2) : List ℚ := [v.x, v.y]

/-- `Vector3::as_slice()`. -/
def Vec3.toComponents (v : Vec3) : List ℚ := [v.x, v.y, v.z]

/-- `Vector4::as_slice()`. -/
def Vec4.toComponents (v : Vec4) : List ℚ := [v.x, v.y, v.z, v.w]

/-- Rust `Vec::splice(start..stop, items)` on `Vec<f32>`: replaces the range
`start..stop` by `items`.  Panics — modelled as `none` — unless
`start ≤ stop ≤ len`. -/
def vecSplice (v : List ℚ) (start stop : Nat) (items : List ℚ) :
    Option (List ℚ) :=
  if start ≤ stop ∧ stop ≤ v.length then
    some (v.take start ++ items ++ v.drop stop)
  else
    none

/-- The shared body of the three slice impls: fold over the vectors,
splicing each one's components at the constant range
`self.len()..self.len()` into the accumulator (which starts empty). -/
def flattenVectorArray {α : Type} (components : α → List ℚ) (vs : List α) :
    Option (List ℚ) :=
  vs.foldl
    (fun acc v =>
      acc.bind fun buf => vecSplice buf vs.length vs.length (components v))
    (some [])

/-- `impl UniformValue for &[Vector2<f32>]`, flattening step. -/
def flattenVector2Array (vs : List Vec2) : Option (List ℚ) :=
  flattenVectorArray Vec2.toComponents vs

/-- `impl UniformValue for &[Vector3<f32>]`, flattening step. -/
def flattenVector3Array (vs : List Vec3) : Option (List ℚ) :=
  flattenVectorArray Vec3.toComponents vs

/-- `impl UniformValue for &[Vector4<f32>]`, flattening step. -/
def flattenVector4Array (vs : List Vec4) : Option (List ℚ) :=
  flattenVectorArray Vec4.toComponents vs

/-- C5: the flattening panics on every non-empty vector array.  At the
failing input `[Vector2(1,2)]` the first loop iteration calls
`Vec::splice(1..1, ..)` on the still-empty accumulator, whose length 0 makes
the range out of bounds; the same happens for the 3- and 4-component
variants, while the empty array flattens to the empty buffer. -/
theorem vector_array_flattening_panics :
    flattenVector2Array [⟨1, 2⟩] = none ∧
      flattenVector3Array [⟨1, 2, 3⟩] = none ∧
        flattenVector4Array [⟨1, 2, 3, 4⟩] = none ∧
          flattenVector2Array [] = some [] := by
  refine ⟨rfl, rfl, rfl, rfl⟩

/-! ### `src/renderer/material.rs` / `src/renderer/uniform.rs` — location
lookups (C6, C10)

The GPU context is modelled symbolically by its two location tables:
`get_attrib_location` (an `i32`, `-1` when the attribute is absent) and
`get_uniform_location` (an optional handle).  Lookup functions additionally
return the list of names queried on the context, so that memoization —
"the underlying GPU query happens only on the first call" — is observable. -/

structure GpuContext where
  attribLocation : String → Int
  uniformLocation : String → Option Nat

/-- Embedding of `struct BufferConfig`. -/
structure BufferConfig where
  vertex_name : Option String
  normals_name : Option String
  weights_name : Option String
  vertex_location : Option Int
  normals_location : Option Int
  weights_location : Option Int
  locations_ready : Bool
deriving DecidableEq, Repr

/-- `BufferConfig::new`. -/
def BufferConfig.new : BufferConfig :=
  ⟨none, none, none, none, none, none, false⟩

/-- `BufferConfig::lookup_locations`, returning the updated config together
with the attribute names queried on the context.  The three `if let` blocks
of the source look up the vertex location with `vertex_name`, the weights
location with `weights_name`, and the normals location also with
`weights_name` (material.rs lines 332-334). -/
def BufferConfig.lookup_locations (cfg : BufferConfig) (ctx : GpuContext) :
    BufferConfig × List String :=
  if cfg.locations_ready then
    (cfg, [])
  else
    let vres :=
      match cfg.vertex_name with
      | some name => (some (ctx.attribLocation name), [name])
      | none => (cfg.vertex_location, [])
    let wres :=
      match cfg.weights_name with
      | some name => (some (ctx.attribLocation name), [name])
      | none => (cfg.weights_location, [])
    let nres :=
      match cfg.weights_name with
      | some name => (some (ctx.attribLocation name), [name])
      | none => (cfg.normals_location, [])
    ({ cfg with
        vertex_location := vres.1,
        weights_location := wres.1,
        normals_location := nres.1,
        locations_ready := true },
      vres.2 ++ wres.2 ++ nres.2)

/-- Embedding of `struct Uniform` restricted to the fields the location
lookup reads and writes (the `value` box is an upload payload and never
consulted by `lookup_location`). -/
structure Uniform where
  name : String
  location : Option Nat
  texture_index : Option Nat
deriving DecidableEq, Repr

/-- `Uniform::new`. -/
def Uniform.new (name : String) : Uniform := ⟨name, none, none⟩

/-- `Uniform::lookup_location`, returning the updated uniform together with
the names queried on the context: the query runs only when the cached
location is still `None`. -/
def Uniform.lookup_location (u : Uniform) (ctx : GpuContext) :
    Uniform × List String :=
  if u.location = none then
    ({ u with location := ctx.uniformLocation u.name }, [u.name])
  else
    (u, [])

/-- A context for the C6 scenario: three attributes at distinct locations. -/
def attribContext : GpuContext :=
  ⟨fun name =>
      if name = "a_position" then 0
      else if name = "a_normal" then 1
      else if name = "a_weight" then 2
      else -1,
    fun _ => none⟩

/-- The C6 configuration: all three attribute names set. -/
def namedConfig : BufferConfig :=
  { BufferConfig.new with
      vertex_name := some "a_position",
      normals_name := some "a_normal",
      weights_name := some "a_weight" }

/-- C6: attribute-location resolution is keyed by `weights_name` for the
normals slot.  With vertex, normals and weights names configured as
`a_position`/`a_normal`/`a_weight` living at locations 0/1/2, the lookup
caches location 2 (the weights attribute) — not 1 — as the normals location,
never queries `a_normal` at all, and leaves the normals location empty when
only a normals name (and no weights name) is configured. -/
theorem normals_location_uses_weights_name :
    (namedConfig.lookup_locations attribContext).1.normals_location =
        some 2 ∧
      (namedConfig.lookup_locations attribContext).1.normals_location ≠
          some 1 ∧
        (namedConfig.lookup_locations attribContext).2 =
            ["a_position", "a_weight", "a_weight"] ∧
          (({ BufferConfig.new with normals_name := some "a_normal"
              } : BufferConfig).lookup_locations
                attribContext).1.normals_location = none := by
  refine ⟨rfl, by decide, rfl, rfl⟩

/-- The uniform name used in the C10 scenarios. -/
def missingUniform : Uniform := Uniform.new "u_missing"

/-- A context that resolves no uniform name at all. -/
def emptyUniformContext : GpuContext := ⟨fun _ => -1, fun _ => none⟩

/-- C10 counterexample: when the first lookup of a uniform's location comes
back `None` (the name is absent from the program), the immediately following
second call performs the underlying GPU query again instead of only during
the first call. -/
theorem uniform_lookup_requeries_counterexample :
    ((missingUniform.lookup_location emptyUniformContext).1.lookup_location
          emptyUniformContext).2 = ["u_missing"] ∧
      ((missingUniform.lookup_location emptyUniformContext).1.lookup_location
            emptyUniformContext).2 ≠ [] := by
  refine ⟨rfl, by decide⟩

/-- C10 amended: `BufferConfig::lookup_locations` is fully memoized — an
immediate second call returns the cached configuration unchanged and
performs no GPU query; `Uniform::lookup_location` is memoized only once a
location has actually been resolved: if the first call caches `some`
location, the second call performs no query and yields the same cached
uniform, but a lookup that stays `None` is re-queried on each call. -/
theorem location_lookup_memoization_amended (cfg : BufferConfig)
    (u : Uniform) (ctx : GpuContext) :
    ((cfg.lookup_locations ctx).1.lookup_locations ctx =
        ((cfg.lookup_locations ctx).1, [])) ∧
      (∀ l : Nat,
        (u.lookup_location ctx).1.location = some l →
          (u.lookup_location ctx).1.lookup_location ctx =
            ((u.lookup_location ctx).1, [])) := by
  constructor
  · by_cases h : cfg.locations_ready = true
    · simp [BufferConfig.lookup_locations, h]
    · simp only [BufferConfig.lookup_locations]
      simp [h]
  · intro l hl
    generalize (u.lookup_location ctx).1 = u₁ at hl ⊢
    simp [Uniform.lookup_location, hl]

/-- Witness for the amended memoization theorem: a context resolving
`u_view_matrix` to location 7, a fresh uniform of that name, and the named
buffer configuration. -/
theorem location_lookup_memoization_amended_witness :
    ((Uniform.new "u_view_matrix").lookup_location
            ⟨fun _ => -1, fun name =>
              if name = "u_view_matrix" then some 7 else none⟩).1.location =
        some 7 ∧
      ((Uniform.new "u_view_matrix").lookup_location
            ⟨fun _ => -1, fun name =>
              if name = "u_view_matrix" then some 7 else none⟩).1.lookup_location
          ⟨fun _ => -1, fun name =>
            if name = "u_view_matrix" then some 7 else none⟩ =
        (((Uniform.new "u_view_matrix").lookup_location
            ⟨fun _ => -1, fun name =>
              if name = "u_view_matrix" then some 7 else none⟩).1, []) :=
  ⟨by decide,
    (location_lookup_memoization_amended BufferConfig.new
          (Uniform.new "u_view_matrix")
          ⟨fun _ => -1, fun name =>
            if name = "u_view_matrix" then some 7 else none⟩).2 7
      (by decide)⟩

/-! ### `src/renderer/light_repository.rs` — uploading the light arrays (C3)

`set_material_uniforms` builds `Uniform::new_with_location` values and
immediately uploads them; the observable effect per uniform is a write of a
value at a cached location, modelled as an `UploadEvent`.  The material is
represented by its `GlobalUniformLocations` (`src/renderer/uniform.rs`),
whose light arrays have `MAX_NUMBER_OF_LIGHTS = 8` slots; it has no
spot-light location array. -/

/-- A value uploaded to the GPU context by one `set_to_context` call. -/
inductive GlValue where
  | scalar (v : ℚ)
  | vec3 (v : Vec3)
  | vec4 (v : Vec4)
deriving DecidableEq, Repr

/-- One `uniform*` upload: the cached location it targets and the value. -/
structure UploadEvent where
  location : Option Nat
  value : GlValue
deriving DecidableEq, Repr

/-- Embedding of `struct LightUniformLocations`. -/
structure LightUniformLocations where
  color : Option Nat
  intensity : Option Nat
  attenuation : Option Nat
  position_or_direction : Option Nat
deriving DecidableEq, Repr

/-- Embedding of `struct GlobalUniformLocations` (the fields read by
`set_material_uniforms`); the two arrays have 8 slots each. -/
structure GlobalUniformLocations where
  ambiant_light_location : Option Nat
  point_lights_locations : List LightUniformLocations
  directional_lights_locations : List LightUniformLocations
deriving DecidableEq, Repr

/-- `LightRepository::set_light_uniform`: selects the point or directional
location array by the `point` flag, indexes it at `index`, and uploads the
light's color, intensity, attenuation and direction/position there.  (Rust
indexing panics past slot 8; the claims only index within bounds, modelled
with a default empty slot.) -/
def LightRepository.set_light_uniform (material : GlobalUniformLocations)
    (light : Light) (point : Bool) (dir_or_pos : Vec3) (index : Nat) :
    List UploadEvent :=
  let locations :=
    if point then material.point_lights_locations
    else material.directional_lights_locations
  let slot := locations.getD index ⟨none, none, none, none⟩
  [⟨slot.color, GlValue.vec3 light.color⟩,
   ⟨slot.intensity, GlValue.scalar light.intensity⟩,
   ⟨slot.attenuation, GlValue.scalar light.attenuation⟩,
   ⟨slot.position_or_direction, GlValue.vec3 dir_or_pos⟩]

/-- `LightRepository::set_material_uniforms`: ambient (as a color+intensity
4-vector) when present, then every directional light with `point = false`,
then every point light — also with `point = false` in the source (line 56).
The spot list is never read. -/
def LightRepository.set_material_uniforms (repo : LightRepository)
    (material : GlobalUniformLocations) : List UploadEvent :=
  (match repo.ambiant with
   | some light =>
       [⟨material.ambiant_light_location,
         GlValue.vec4
           ⟨light.color.x, light.color.y, light.color.z, light.intensity⟩⟩]
   | none => []) ++
    (repo.directional.enum.flatMap fun dir_light =>
      LightRepository.set_light_uniform material dir_light.2.1 false
        dir_light.2.2 dir_light.1) ++
    (repo.point.enum.flatMap fun point_light =>
      LightRepository.set_light_uniform material point_light.2.1 false
        point_light.2.2 point_light.1)

/-- Locations for the C3 scenario: the directional array slots live at
10..17 and the point array slots at 20..27 (two slots shown each), all
distinct. -/
def lightLocations : GlobalUniformLocations :=
  ⟨some 5,
    [⟨some 20, some 21, some 22, some 23⟩, ⟨some 24, some 25, some 26, some 27⟩],
    [⟨some 10, some 11, some 12, some 13⟩, ⟨some 14, some 15, some 16, some 17⟩]⟩

/-- A repository for the C3 scenario: one directional light, one point
light, one spot light. -/
def mixedLightRepository : LightRepository :=
  ⟨none,
    [(⟨⟨1, 0, 0⟩, 1, 0⟩, ⟨0, 0, 1⟩)],
    [(⟨⟨0, 1, 0⟩, 2, 0⟩, ⟨3, 4, 5⟩)],
    [(⟨⟨0, 0, 1⟩, 3, 0⟩, ⟨6, 7, 8⟩, ⟨0, 1, 0⟩, ⟨1, 2⟩)]⟩

/-- C3: binding a material against a repository holding one directional, one
point and one spot light uploads the directional light to the directional
slots at index 0, then uploads the point light to those same directional
slots (the source passes `point = false` for point lights), targets no
location of the point array (every written location is below 20, while the
point slots live at 20..27), and emits no upload at all for the spot
light. -/
theorem point_lights_written_to_directional_slots :
    mixedLightRepository.set_material_uniforms lightLocations =
        [⟨some 10, GlValue.vec3 ⟨1, 0, 0⟩⟩,
         ⟨some 11, GlValue.scalar 1⟩,
         ⟨some 12, GlValue.scalar 0⟩,
         ⟨some 13, GlValue.vec3 ⟨0, 0, 1⟩⟩,
         ⟨some 10, GlValue.vec3 ⟨0, 1, 0⟩⟩,
         ⟨some 11, GlValue.scalar 2⟩,
         ⟨some 12, GlValue.scalar 0⟩,
         ⟨some 13, GlValue.vec3 ⟨3, 4, 5⟩⟩] ∧
      ((mixedLightRepository.set_material_uniforms lightLocations).all
          fun ev => decide (ev.location.getD 0 < 20)) = true := by
  refine ⟨rfl, by decide⟩

/-! ### `src/asset/mod.rs` and `src/asset/asset_registry.rs` (C7) -/

/-- Payload of a deserialized `MaterialInstanceFile` (the binary `bincode`
decoding itself is the external asset-file deserializer): the instance id,
the declared parent material id, and the named override uniforms (uniform
values are opaque GPU payloads, carried by name). -/
structure MaterialInstanceFile where
  id : String
  parent_id : String
  uniforms : List String
deriving DecidableEq, Repr

/-- The `MaterialInstance` produced by `make_material_instance_from`. -/
structure MaterialInstanceR where
  id : String
  parent_id : String
  uniform_names : List String
deriving DecidableEq, Repr

/-- Embedding of `enum Asset`; `noneA` is the source's `Asset::None`.
Mesh-data, material and texture payloads are carried by id — the claim out
of this section exercises only the registry bookkeeping. -/
inductive Asset where
  | meshData (id : String)
  | material (id : String)
  | materialInstance (inst : MaterialInstanceR)
  | texture (id : String)
  | noneA
deriving DecidableEq, Repr

/-- Embedding of `struct AssetRegistry`: the asset vector plus the
string-id-to-index map (`HashMap` modelled as an association list whose
lookup takes the most recent insertion). -/
structure AssetRegistry where
  assets : List Asset
  index : List (String × Nat)
deriving DecidableEq, Repr

/-- `AssetRegistry::new`. -/
def AssetRegistry.new : AssetRegistry := ⟨[], []⟩

/-- `HashMap::insert` on the index. -/
def indexInsert (index : List (String × Nat)) (key : String) (value : Nat) :
    List (String × Nat) :=
  (key, value) :: index

/-- `HashMap::get` on the index. -/
def indexGet (index : List (String × Nat)) (key : String) : Option Nat :=
  (index.find? fun entry => entry.1 == key).map Prod.snd

/-- `AssetRegistry::get_asset`: `Asset::None` on a missing id.  (The vector
access is in bounds whenever the index was built by registration; a stale
index falls back to `Asset::None` here.) -/
def AssetRegistry.get_asset (r : AssetRegistry) (id : String) : Asset :=
  match indexGet r.index id with
  | some asset => r.assets.getD asset Asset.noneA
  | none => Asset.noneA

/-- `AssetRegistry::get_material`. -/
def AssetRegistry.get_material (r : AssetRegistry) (id : String) :
    Option String :=
  match r.get_asset id with
  | Asset.material m => some m
  | _ => none

/-- `AssetRegistry::get_material_instance`. -/
def AssetRegistry.get_material_instance (r : AssetRegistry) (id : String) :
    Option MaterialInstanceR :=
  match r.get_asset id with
  | Asset.materialInstance inst => some inst
  | _ => none

/-- `make_material_instance_from` (`src/asset/mod.rs`): resolves the
declared parent material id against the registry; on success builds the
instance with its override uniforms, otherwise fails with the
missing-parent error. -/
def make_material_instance_from (r : AssetRegistry)
    (mat_instance_file : MaterialInstanceFile) :
    Except String MaterialInstanceR :=
  match r.get_material mat_instance_file.parent_id with
  | some _ =>
      Except.ok
        ⟨mat_instance_file.id, mat_instance_file.parent_id,
          mat_instance_file.uniforms⟩
  | none =>
      Except.error "Could not find parent material. Has it been registered yet?"

/-- `AssetRegistry::register_material_instance` (deserialization of the raw
bytes into the `MaterialInstanceFile` is the external decoder): on success
the instance is appended and indexed under its id; on failure the error is
propagated and the registry is untouched. -/
def AssetRegistry.register_material_instance (r : AssetRegistry)
    (mat_instance_file : MaterialInstanceFile) :
    Except String String × AssetRegistry :=
  match make_material_instance_from r mat_instance_file with
  | Except.ok matinstance =>
      (Except.ok matinstance.id,
        ⟨r.assets ++ [Asset.materialInstance matinstance],
          indexInsert r.index matinstance.id r.assets.length⟩)
  | Except.error message => (Except.error message, r)

/-- C7: registering a material instance whose declared parent material id is
not registered fails with the missing-parent error and leaves the registry
unchanged; in particular a subsequent lookup of the instance's would-be id
still returns none when it did before. -/
theorem register_material_instance_missing_parent (r : AssetRegistry)
    (file : MaterialInstanceFile)
    (hparent : r.get_material file.parent_id = none) :
    (r.register_material_instance file).1 =
        Except.error
          "Could not find parent material. Has it been registered yet?" ∧
      (r.register_material_instance file).2 = r ∧
        (r.get_material_instance file.id = none →
          (r.register_material_instance file).2.get_material_instance
              file.id = none) := by
  simp [AssetRegistry.register_material_instance,
    make_material_instance_from, hparent]

/-- Witness for C7: the empty registry and an instance file declaring the
unregistered parent id. -/
theorem register_material_instance_missing_parent_witness :
    AssetRegistry.new.get_material "mat1" = none ∧
      (AssetRegistry.new.register_material_instance
            ⟨"inst1", "mat1", []⟩).1 =
        Except.error
          "Could not find parent material. Has it been registered yet?" :=
  ⟨by decide,
    (register_material_instance_missing_parent AssetRegistry.new
        ⟨"inst1", "mat1", []⟩ (by decide)).1⟩

/-! ### `src/system/rendering_system.rs` — per-frame grouping (C8)

`RenderingSystem::run` sorts every enabled mesh-bearing entity into
`SortedMeshes = HashMap<material-id, HashMap<mesh-data-id,
Vec<(material-instance-id, &Transform)>>>`.  The to-level hash maps are
modelled as association lists (iteration order is irrelevant to the
counting claim); each entity contributes its `Mesh` component's three ids
and its transform reference, carried as an opaque `α`. -/

/-- Embedding of `struct Mesh` (`src/component/mesh.rs`): the three asset
ids the grouping reads. -/
structure Mesh where
  material : Nat
  material_instance : Nat
  mesh_data : Nat
deriving DecidableEq, Repr

/-- `type SortedMeshes`. -/
def SortedMeshes (α : Type) : Type :=
  List (Nat × List (Nat × List (Nat × α)))

/-- Inner-map update: `mesh_hash_map.get_mut(mesh_data_id)` followed by a
push on a hit and an `insert` of a fresh singleton vector on a miss. -/
def pushInner {α : Type} (inner : List (Nat × List (Nat × α)))
    (mesh_data_id instance_id : Nat) (t : α) : List (Nat × List (Nat × α)) :=
  match inner with
  | [] => [(mesh_data_id, [(instance_id, t)])]
  | (key, transform_vec) :: rest =>
      if key = mesh_data_id then
        (key, transform_vec ++ [(instance_id, t)]) :: rest
      else
        (key, transform_vec) :: pushInner rest mesh_data_id instance_id t

/-- Outer-map update: `sorted_meshes.get_mut(material_id)` followed by the
inner update on a hit and an `insert` of a fresh inner map on a miss. -/
def pushSorted {α : Type} (sorted : SortedMeshes α)
    (material_id mesh_data_id instance_id : Nat) (t : α) : SortedMeshes α :=
  match sorted with
  | [] => [(material_id, [(mesh_data_id, [(instance_id, t)])])]
  | (key, inner) :: rest =>
      if key = material_id then
        (key, pushInner inner mesh_data_id instance_id t) :: rest
      else
        (key, inner) :: pushSorted rest material_id mesh_data_id instance_id t

/-- The body of the entity loop of `RenderingSystem::run`: insert one
(mesh, transform) pair into the nested map. -/
def groupStep {α : Type} (sorted_meshes : SortedMeshes α) (e : Mesh × α) :
    SortedMeshes α :=
  pushSorted sorted_meshes e.1.material e.1.mesh_data e.1.material_instance e.2

/-- `RenderingSystem::run`, grouping phase: fold the entity loop over all
enabled mesh-bearing entities. -/
def RenderingSystem.run {α : Type} (entities : List (Mesh × α)) :
    SortedMeshes α :=
  entities.foldl groupStep []

/-- Total number of `(material-instance-id, transform)` leaf entries. -/
def leafCount {α : Type} (sorted : SortedMeshes α) : Nat :=
  (sorted.map fun group => (group.2.map fun h => h.2.length).sum).sum

/-- The top-level material-id keys. -/
def topKeys {α : Type} (sorted : SortedMeshes α) : List Nat :=
  sorted.map Prod.fst

theorem topKeys_pushSorted {α : Type} (sorted : SortedMeshes α)
    (m md inst : Nat) (t : α) :
    topKeys (pushSorted sorted m md inst t) =
      if m ∈ topKeys sorted then topKeys sorted else topKeys sorted ++ [m] := by
  induction sorted with
  | nil => simp [pushSorted, topKeys]
  | cons head rest ih =>
    obtain ⟨key, inner⟩ := head
    by_cases hk : key = m
    · subst hk
      simp [pushSorted, topKeys]
    · have hmk : ¬m = key := fun h => hk h.symm
      by_cases hm : m ∈ topKeys rest
      · simp only [pushSorted, if_neg hk, topKeys, List.map_cons] at ih ⊢
        simp only [topKeys] at hm
        rw [ih]
        simp [List.mem_cons, hm, hmk]
      · simp only [pushSorted, if_neg hk, topKeys, List.map_cons] at ih ⊢
        simp only [topKeys] at hm
        rw [ih]
        simp [List.mem_cons, hm, hmk]

theorem mem_topKeys_pushSorted {α : Type} (sorted : SortedMeshes α)
    (m md inst : Nat) (t : α) (x : Nat) :
    x ∈ topKeys (pushSorted sorted m md inst t) ↔
      x ∈ topKeys sorted ∨ x = m := by
  rw [topKeys_pushSorted]
  by_cases hm : m ∈ topKeys sorted
  · simp only [if_pos hm]
    constructor
    · exact Or.inl
    · rintro (h | rfl)
      · exact h
      · exact hm
  · simp [if_neg hm]

theorem nodup_topKeys_pushSorted {α : Type} (sorted : SortedMeshes α)
    (m md inst : Nat) (t : α) (h : (topKeys sorted).Nodup) :
    (topKeys (pushSorted sorted m md inst t)).Nodup := by
  rw [topKeys_pushSorted]
  by_cases hm : m ∈ topKeys sorted
  · simpa [hm] using h
  · simp [hm, List.nodup_append, h]

/-- Leaf-entry count of one inner (mesh-data-id) map. -/
def innerCount {α : Type} (inner : List (Nat × List (Nat × α))) : Nat :=
  (inner.map fun h => h.2.length).sum

theorem innerCount_pushInner {α : Type} (inner : List (Nat × List (Nat × α)))
    (md inst : Nat) (t : α) :
    innerCount (pushInner inner md inst t) = innerCount inner + 1 := by
  induction inner with
  | nil => simp [pushInner, innerCount]
  | cons head rest ih =>
    obtain ⟨key, vec⟩ := head
    by_cases hk : key = md
    · simp [pushInner, hk, innerCount]
      omega
    · simp only [pushInner, if_neg hk, innerCount, List.map_cons, List.sum_cons]
      simp only [innerCount] at ih
      omega

theorem leafCount_pushSorted {α : Type} (sorted : SortedMeshes α)
    (m md inst : Nat) (t : α) :
    leafCount (pushSorted sorted m md inst t) = leafCount sorted + 1 := by
  induction sorted with
  | nil => simp [pushSorted, leafCount]
  | cons head rest ih =>
    obtain ⟨key, inner⟩ := head
    by_cases hk : key = m
    · simp only [pushSorted, if_pos hk, leafCount, List.map_cons, List.sum_cons]
      have := innerCount_pushInner inner md inst t
      simp only [innerCount] at this
      omega
    · simp only [pushSorted, if_neg hk, leafCount, List.map_cons, List.sum_cons]
      simp only [leafCount] at ih
      omega

theorem run_fold_invariant {α : Type} (entities : List (Mesh × α))
    (sorted : SortedMeshes α) :
    leafCount (entities.foldl groupStep sorted) =
        leafCount sorted + entities.length ∧
      ((topKeys sorted).Nodup →
        (topKeys (entities.foldl groupStep sorted)).Nodup) ∧
      ∀ x : Nat,
        x ∈ topKeys (entities.foldl groupStep sorted) ↔
          x ∈ topKeys sorted ∨ x ∈ entities.map fun e => e.1.material := by
  induction entities generalizing sorted with
  | nil => simp
  | cons e es ih =>
    obtain ⟨hcount, hnodup, hmem⟩ := ih (groupStep sorted e)
    refine ⟨?_, ?_, ?_⟩
    · rw [List.foldl_cons, hcount, groupStep, leafCount_pushSorted]
      simp
      omega
    · intro h
      rw [List.foldl_cons]
      exact hnodup (nodup_topKeys_pushSorted _ _ _ _ _ h)
    · intro x
      rw [List.foldl_cons, hmem x, groupStep, mem_topKeys_pushSorted]
      simp
      tauto

/-- C8: the grouping produces top-level groups keyed exactly (and without
duplicates) by the distinct material ids of the input — so exactly M groups
for M distinct material ids — and the total number of
(material-instance-id, transform) leaf entries equals the number of grouped
entities: nothing is dropped or duplicated. -/
theorem mesh_grouping_counts {α : Type} (entities : List (Mesh × α)) :
    (topKeys (RenderingSystem.run entities)).Nodup ∧
      (∀ m : Nat,
        m ∈ topKeys (RenderingSystem.run entities) ↔
          m ∈ entities.map fun e => e.1.material) ∧
      (RenderingSystem.run entities).length =
          (entities.map fun e => e.1.material).dedup.length ∧
        leafCount (RenderingSystem.run entities) = entities.length := by
  obtain ⟨hcount, hnodup, hmem⟩ := run_fold_invariant entities []
  have hrun : RenderingSystem.run entities = entities.foldl groupStep [] := rfl
  have hnd : (topKeys (RenderingSystem.run entities)).Nodup := by
    rw [hrun]
    exact hnodup (by simp [topKeys])
  have hm : ∀ m : Nat,
      m ∈ topKeys (RenderingSystem.run entities) ↔
        m ∈ entities.map fun e => e.1.material := by
    intro m
    rw [hrun, hmem m]
    simp [topKeys]
  refine ⟨hnd, hm, ?_, ?_⟩
  · have hfin :
        (topKeys (RenderingSystem.run entities)).toFinset =
          (entities.map fun e => e.1.material).toFinset := by
      ext a
      simp only [List.mem_toFinset]
      exact hm a
    have h1 := List.toFinset_card_of_nodup hnd
    have h2 := List.card_toFinset (l := entities.map fun e => e.1.material)
    have hlen : (topKeys (RenderingSystem.run entities)).length =
        (entities.map fun e => e.1.material).dedup.length := by
      rw [← h1, hfin, h2]
    simpa [topKeys] using hlen
  · rw [hrun, hcount]
    simp [leafCount]

/-! ### `src/system/scene_graph_system.rs` — the scene-graph pass (C1)

A scene is the list of entities; the list index is the entity id.  Each
node carries its `Transform` plus the presence data of the
`TransformParent`, `Enabled` and `DirtyTransform` components.  The external
`specs_hierarchy::Hierarchy` keeps `all()` sorted so parents come before
children; this topological order is modelled by walking indices in
increasing order under the well-formedness condition that every parent
index is smaller than its child's.  The first loop of `run` builds the
`dirty_transforms` map: each joined (Transform, DirtyTransform, Enabled)
entity together with all its `all_children_iter` descendants, each mapped
to its hierarchy parent (`markedB` below reproduces its key set, and the
stored value always equals the parent link).  The second loop refreshes the
marked roots (hash-map order; roots are independent, modelled in index
order), the third refreshes the marked nodes that have parents in
topological order, reading the parent's cached world matrix. -/

/-- One scene entity: its `Transform` plus the `TransformParent`,
`Enabled` and `DirtyTransform` component data. -/
structure SceneNode where
  transform : Transform
  parent : Option Nat
  enabled : Bool
  dirtyTag : Bool
deriving DecidableEq, Repr

/-- A scene: node list indexed by entity id. -/
abbrev Scene : Type := List SceneNode

/-- Number of entities. -/
def Scene.size (s : Scene) : Nat := s.length

/-- The node of entity `i`. -/
def nodeAt (s : Scene) (i : Nat) : Option SceneNode := s[i]?

/-- `hierarchy.parent(i)`. -/
def parentOf (s : Scene) (i : Nat) : Option Nat :=
  (nodeAt s i).bind SceneNode.parent

/-- Replace node `i` (no-op when absent). -/
def setNodeAt (s : Scene) (i : Nat) (f : SceneNode → SceneNode) : Scene :=
  match nodeAt s i with
  | some node => List.set s i (f node)
  | none => s

/-- The ancestor chain of `i` (nearest parent first), with explicit fuel;
under well-formedness a fuel of `i + 1` always suffices because parent
indices strictly decrease. -/
def ancestorsF : Nat → Scene → Nat → List Nat
  | 0, _, _ => []
  | fuel + 1, s, i =>
    match parentOf s i with
    | some p => p :: ancestorsF fuel s p
    | none => []

/-- The ancestor chain of `i`. -/
def ancestors (s : Scene) (i : Nat) : List Nat := ancestorsF (i + 1) s i

/-- `i` is in `hierarchy.all_children_iter(anc)` — a strict descendant of
`anc`. -/
def isDescendantOf (s : Scene) (i anc : Nat) : Bool :=
  decide (anc ∈ ancestors s i)

/-- Whether entity `d` is matched by the join of the first loop of
`SceneGraphSystem::run`: it has a `Transform` (every node does here), a
`DirtyTransform` tag and an `Enabled` tag. -/
def joinsDirty (s : Scene) (d : Nat) : Bool :=
  match nodeAt s d with
  | some node => node.dirtyTag && node.enabled
  | none => false

/-- The key set of the `dirty_transforms` map built by the first loop: the
joined entities together with all their descendants. -/
def markedB (s : Scene) (i : Nat) : Bool :=
  (List.range s.size).any fun d =>
    joinsDirty s d && (i == d || isDescendantOf s i d)

/-- Refresh entity `i` from its parent's cached world matrix:
`transforms.get_mut(i).unwrap().refresh_world_matrix(parent_matrix)`
followed by `dirty.remove(i)`.  The parent's matrix is its stored
`world_matrix` (the parent was refreshed earlier in the pass whenever it
was marked, the hierarchy being walked parents-first). -/
def refreshAt (s : Scene) (i : Nat) : Scene :=
  setNodeAt s i fun node =>
    { node with
      transform := node.transform.refresh_world_matrix
        (match node.parent with
         | some p =>
             match nodeAt s p with
             | some parent_node => some parent_node.transform.world_matrix
             | none => none
         | none => none),
      dirtyTag := false }

/-- One refresh loop over the entity indices below the counter, guarded by
`g`; both refresh loops of `run` are instances of it. -/
def passLoop (g : Nat → Bool) : Nat → Scene → Scene
  | 0, s => s
  | k + 1, s =>
      let acc := passLoop g k s
      if g k then refreshAt acc k else acc

/-- The second loop of `run`: refresh every marked root
(`dirty_transforms` value `None`; hash-map iteration order is arbitrary,
but marked roots are mutually independent, so index order is a faithful
model). -/
def rootsLoop (mk : Nat → Bool) (pm : Nat → Option Nat) :
    Nat → Scene → Scene :=
  passLoop fun k => mk k && (pm k).isNone

/-- The third loop of `run`: walk `hierarchy.all()` in topological (index)
order and refresh every marked entity that has a parent. -/
def childLoop (mk : Nat → Bool) (pm : Nat → Option Nat) :
    Nat → Scene → Scene :=
  passLoop fun k => mk k && (pm k).isSome

/-- `SceneGraphSystem::run`: build the dirty map, refresh marked roots,
then refresh marked children in parent-before-child order. -/
def SceneGraphSystem.run (s : Scene) : Scene :=
  childLoop (markedB s) (parentOf s) s.size
    (rootsLoop (markedB s) (parentOf s) s.size s)

/-- One local TRS mutation, `Transform::set_translation / set_rotation /
set_scale`. -/
inductive SetOp where
  | translation (v : Vec3)
  | rotation (q : Quat)
  | scale (v : Vec3)
deriving DecidableEq, Repr

/-- Dispatch of the three setters. -/
def applySetOp (op : SetOp) (tr : Transform) : Transform :=
  match op with
  | SetOp.translation v => tr.set_translation v
  | SetOp.rotation q => tr.set_rotation q
  | SetOp.scale v => tr.set_scale v

/-- Modelled from the spec: the host control surface ("functions to …
set transform fields", spec §6, outside `src/`) applies one `Transform`
setter to entity `i` and tags the entity with the `DirtyTransform`
component that `SceneGraphSystem::run` joins on ("any local TRS mutation
must set `dirty = true` …, defer recomputation until the next graph
pass"). -/
def setLocalTRS (s : Scene) (i : Nat) (op : SetOp) : Scene :=
  setNodeAt s i fun node =>
    { node with transform := applySetOp op node.transform, dirtyTag := true }

/-- Well-formed hierarchy: every parent link points to a strictly smaller
index (`specs_hierarchy` keeps `all()` parents-before-children; index order
realizes that topological order). -/
def wellFormedB (s : Scene) : Bool :=
  (List.range s.size).all fun i =>
    match parentOf s i with
    | some p => decide (p < i)
    | none => true

/-- Steady state before the mutation: no inner dirty flag and no
`DirtyTransform` tag anywhere. -/
def allCleanB (s : Scene) : Bool :=
  List.all s fun node => !node.transform.dirty && !node.dirtyTag

/-- The `Enabled` tag of entity `i`. -/
def enabledAt (s : Scene) (i : Nat) : Bool :=
  ((nodeAt s i).map SceneNode.enabled).getD false

/-- `i` is the mutated entity or one of its descendants. -/
def affectedB (s : Scene) (n i : Nat) : Bool :=
  i == n || isDescendantOf s i n

/-- The stored world matrix of entity `i` (identity when absent). -/
def worldGetD (s : Scene) (i : Nat) : Mat4 :=
  ((nodeAt s i).map fun node => node.transform.world_matrix).getD Mat4.identity

/-! #### Infrastructure lemmas for the scene-graph pass -/

theorem length_setNodeAt (s : Scene) (i : Nat) (f : SceneNode → SceneNode) :
    (setNodeAt s i f).length = s.length := by
  unfold setNodeAt
  cases nodeAt s i <;> simp

theorem nodeAt_setNodeAt_ne (s : Scene) (i : Nat) (f : SceneNode → SceneNode)
    (j : Nat) (h : j ≠ i) : nodeAt (setNodeAt s i f) j = nodeAt s j := by
  unfold setNodeAt
  cases nodeAt s i
  · rfl
  · simp [nodeAt, List.getElem?_set_ne (Ne.symm h)]

theorem nodeAt_setNodeAt_self (s : Scene) (i : Nat) (f : SceneNode → SceneNode)
    (node : SceneNode) (h : nodeAt s i = some node) :
    nodeAt (setNodeAt s i f) i = some (f node) := by
  have hi : i < s.length := by
    by_contra hge
    rw [nodeAt, List.getElem?_eq_none (by omega)] at h
    exact Option.noConfusion h
  have h₂ : s[i]? = some node := h
  simp [setNodeAt, nodeAt, h₂, List.getElem?_set_self hi]

theorem parentOf_setNodeAt (s : Scene) (i : Nat) (f : SceneNode → SceneNode)
    (hf : ∀ node, (f node).parent = node.parent) (j : Nat) :
    parentOf (setNodeAt s i f) j = parentOf s j := by
  by_cases hji : j = i
  · subst hji
    cases hx : nodeAt s j
    · simp [parentOf, setNodeAt, hx]
    · rw [parentOf, nodeAt_setNodeAt_self s j f _ hx, parentOf, hx]
      simp [hf]
  · rw [parentOf, nodeAt_setNodeAt_ne s i f j hji, parentOf]

theorem length_refreshAt (s : Scene) (i : Nat) :
    (refreshAt s i).length = s.length :=
  length_setNodeAt s i _

theorem nodeAt_refreshAt_ne (s : Scene) (i j : Nat) (h : j ≠ i) :
    nodeAt (refreshAt s i) j = nodeAt s j :=
  nodeAt_setNodeAt_ne s i _ j h

theorem nodeAt_refreshAt_self (s : Scene) (i : Nat) (node : SceneNode)
    (h : nodeAt s i = some node) :
    nodeAt (refreshAt s i) i =
      some
        { node with
          transform := node.transform.refresh_world_matrix
            (match node.parent with
             | some p =>
                 match nodeAt s p with
                 | some parent_node => some parent_node.transform.world_matrix
                 | none => none
             | none => none),
          dirtyTag := false } :=
  nodeAt_setNodeAt_self s i _ node h

theorem parentOf_refreshAt (s : Scene) (i j : Nat) :
    parentOf (refreshAt s i) j = parentOf s j := by
  unfold refreshAt
  apply parentOf_setNodeAt
  intro node
  rfl

theorem passLoop_length (g : Nat → Bool) (k : Nat) :
    ∀ s : Scene, (passLoop g k s).length = s.length := by
  induction k with
  | zero => intro s; rfl
  | succ k ih =>
      intro s
      simp only [passLoop]
      by_cases hg : g k <;> simp [hg, length_refreshAt, ih s]

theorem passLoop_nodeAt_ge (g : Nat → Bool) (k : Nat) :
    ∀ (s : Scene) (i : Nat), k ≤ i → nodeAt (passLoop g k s) i = nodeAt s i := by
  induction k with
  | zero => intro s i _; rfl
  | succ k ih =>
      intro s i hki
      have hki' : k ≤ i := by omega
      have hne : i ≠ k := by omega
      simp only [passLoop]
      by_cases hg : g k
      · rw [if_pos hg, nodeAt_refreshAt_ne _ _ _ hne, ih s i hki']
      · rw [if_neg hg, ih s i hki']

theorem passLoop_nodeAt_lt (g : Nat → Bool) (k : Nat) (s : Scene) (i : Nat)
    (hik : i < k) :
    nodeAt (passLoop g k s) i =
      if g i then nodeAt (refreshAt (passLoop g i s) i) i else nodeAt s i := by
  induction k with
  | zero => omega
  | succ k ih =>
      simp only [passLoop]
      by_cases hik' : i < k
      · have hne : i ≠ k := by omega
        by_cases hg : g k
        · rw [if_pos hg, nodeAt_refreshAt_ne _ _ _ hne, ih hik']
        · rw [if_neg hg, ih hik']
      · have hik2 : i = k := by omega
        subst hik2
        by_cases hg : g i
        · rw [if_pos hg, if_pos hg]
        · rw [if_neg hg, if_neg hg]
          exact passLoop_nodeAt_ge g i s i (Nat.le_refl i)

/-- Well-formedness as a proposition. -/
def wfP (s : Scene) : Prop := ∀ i p, parentOf s i = some p → p < i

theorem wellFormed_wfP {s : Scene} (h : wellFormedB s = true) : wfP s := by
  intro i p hp
  by_cases hi : i < s.size
  · have hall := List.all_eq_true.mp h i (List.mem_range.mpr hi)
    rw [hp] at hall
    exact of_decide_eq_true hall
  · rw [parentOf, nodeAt, List.getElem?_eq_none (by simpa [Scene.size] using hi)]
      at hp
    exact Option.noConfusion hp

theorem ancestorsF_congr {s₁ s₂ : Scene}
    (h : ∀ j, parentOf s₁ j = parentOf s₂ j) :
    ∀ (f i : Nat), ancestorsF f s₁ i = ancestorsF f s₂ i := by
  intro f
  induction f with
  | zero => intro i; rfl
  | succ f ih =>
      intro i
      simp only [ancestorsF, h i]
      cases parentOf s₂ i
      · rfl
      · simp [ih]

theorem ancestorsF_stable {s : Scene} (hwf : wfP s) :
    ∀ i f g : Nat, i < f → i < g → ancestorsF f s i = ancestorsF g s i := by
  intro i
  induction i using Nat.strong_induction_on with
  | _ i ih =>
      intro f g hf hg
      obtain ⟨f₁, rfl⟩ : ∃ f₁, f = f₁ + 1 := ⟨f - 1, by omega⟩
      obtain ⟨g₁, rfl⟩ : ∃ g₁, g = g₁ + 1 := ⟨g - 1, by omega⟩
      simp only [ancestorsF]
      cases hp : parentOf s i with
      | none => rfl
      | some p =>
          have hpi : p < i := hwf i p hp
          show p :: ancestorsF f₁ s p = p :: ancestorsF g₁ s p
          rw [ih p hpi f₁ g₁ (by omega) (by omega)]

theorem ancestors_unfold {s : Scene} (hwf : wfP s) (i : Nat) :
    ancestors s i =
      match parentOf s i with
      | some p => p :: ancestors s p
      | none => [] := by
  cases hp : parentOf s i with
  | none =>
      show ancestorsF (i + 1) s i = []
      simp [ancestorsF, hp]
  | some p =>
      have hpi := hwf i p hp
      show ancestorsF (i + 1) s i = p :: ancestors s p
      simp only [ancestorsF, hp]
      rw [ancestorsF_stable hwf p i (p + 1) hpi (Nat.lt_succ_self p)]
      rfl

theorem isDescendantOf_congr {s₁ s₂ : Scene}
    (h : ∀ j, parentOf s₁ j = parentOf s₂ j) (i a : Nat) :
    isDescendantOf s₁ i a = isDescendantOf s₂ i a := by
  unfold isDescendantOf ancestors
  rw [ancestorsF_congr h]

theorem allClean_node {s : Scene} (h : allCleanB s = true) {i : Nat}
    {node : SceneNode} (hx : nodeAt s i = some node) :
    node.transform.dirty = false ∧ node.dirtyTag = false := by
  have hmem : node ∈ s := List.getElem?_mem hx
  have hall := List.all_eq_true.mp h node hmem
  simp only [Bool.and_eq_true, Bool.not_eq_true'] at hall
  exact hall

theorem parentOf_setLocalTRS (s : Scene) (n : Nat) (op : SetOp) (j : Nat) :
    parentOf (setLocalTRS s n op) j = parentOf s j := by
  unfold setLocalTRS
  apply parentOf_setNodeAt
  intro node
  rfl

theorem length_setLocalTRS (s : Scene) (n : Nat) (op : SetOp) :
    (setLocalTRS s n op).length = s.length :=
  length_setNodeAt s n _

/-- Under the C1 hypotheses the key set of the `dirty_transforms` map is
exactly the mutated entity together with its descendants. -/
theorem markedB_setLocalTRS {s₀ : Scene} {n : Nat} {op : SetOp}
    (hclean : allCleanB s₀ = true) (hn : n < s₀.size)
    (hen : enabledAt s₀ n = true) (i : Nat) :
    markedB (setLocalTRS s₀ n op) i = affectedB s₀ n i := by
  have hn' : n < s₀.length := hn
  obtain ⟨node₀, hnode₀⟩ : ∃ node, nodeAt s₀ n = some node :=
    ⟨_, List.getElem?_eq_getElem hn'⟩
  have hpm : ∀ j, parentOf (setLocalTRS s₀ n op) j = parentOf s₀ j :=
    parentOf_setLocalTRS s₀ n op
  have hen₂ : node₀.enabled = true := by
    rw [enabledAt, hnode₀] at hen
    simpa using hen
  have hjoins : ∀ d, joinsDirty (setLocalTRS s₀ n op) d = (d == n) := by
    intro d
    by_cases hd : d = n
    · subst hd
      have hset : nodeAt (setLocalTRS s₀ d op) d =
          some
            { node₀ with
              transform := applySetOp op node₀.transform, dirtyTag := true } :=
        nodeAt_setNodeAt_self s₀ d _ node₀ hnode₀
      simp [joinsDirty, hset, hen₂]
    · have hne : nodeAt (setLocalTRS s₀ n op) d = nodeAt s₀ d :=
        nodeAt_setNodeAt_ne s₀ n _ d hd
      cases hx : nodeAt s₀ d with
      | none => simp [joinsDirty, hne, hx, hd]
      | some node =>
          have hcl := allClean_node hclean hx
          simp [joinsDirty, hne, hx, hcl.2, hd]
  apply Bool.eq_iff_iff.mpr
  constructor
  · intro h
    obtain ⟨d, _, hd⟩ := List.any_eq_true.mp h
    rw [hjoins d] at hd
    simp only [Bool.and_eq_true, beq_iff_eq] at hd
    obtain ⟨rfl, hd₂⟩ := hd
    rw [affectedB, ← isDescendantOf_congr hpm i d]
    simpa using hd₂
  · intro h
    apply List.any_eq_true.mpr
    refine ⟨n, List.mem_range.mpr ?_, ?_⟩
    · have hlen := length_setLocalTRS s₀ n op
      simpa [Scene.size, hlen] using hn'
    · rw [hjoins n]
      simp only [beq_self_eq_true, Bool.true_and]
      rw [isDescendantOf_congr hpm i n]
      rw [affectedB] at h
      simpa using h

/-- A node the pass never marks is untouched by `SceneGraphSystem::run`. -/
theorem run_nodeAt_unmarked (s : Scene) (i : Nat) (hi : i < s.size)
    (hmk : markedB s i = false) :
    nodeAt (SceneGraphSystem.run s) i = nodeAt s i := by
  simp only [SceneGraphSystem.run, rootsLoop, childLoop]
  rw [passLoop_nodeAt_lt _ _ _ i hi]
  rw [if_neg (by simp [hmk])]
  rw [passLoop_nodeAt_lt _ _ _ i hi]
  rw [if_neg (by simp [hmk])]

/-- A marked root is refreshed (in the second loop) with no parent
matrix. -/
theorem run_nodeAt_marked_root (s : Scene) (i : Nat) (node : SceneNode)
    (hi : i < s.size) (hnode : nodeAt s i = some node)
    (hmk : markedB s i = true) (hp : node.parent = none) :
    nodeAt (SceneGraphSystem.run s) i =
      some
        { node with
          transform := node.transform.refresh_world_matrix none,
          dirtyTag := false } := by
  have hpm : parentOf s i = none := by
    rw [parentOf, hnode]
    simpa using hp
  simp only [SceneGraphSystem.run, rootsLoop, childLoop]
  rw [passLoop_nodeAt_lt _ _ _ i hi]
  rw [if_neg (by simp [hpm])]
  rw [passLoop_nodeAt_lt _ _ _ i hi]
  rw [if_pos (by simp [hmk, hpm])]
  have ht :
      nodeAt
        (passLoop (fun k => markedB s k && (parentOf s k).isNone) i s) i =
        some node := by
    rw [passLoop_nodeAt_ge _ i s i (Nat.le_refl i)]
    exact hnode
  rw [nodeAt_refreshAt_self _ i node ht, hp]

/-- A marked node with a parent is refreshed (in the third, topological
loop) from the parent's resulting world matrix. -/
theorem run_nodeAt_marked_child (s : Scene) (i : Nat) (node : SceneNode)
    (p : Nat) (hi : i < s.size) (hnode : nodeAt s i = some node)
    (hmk : markedB s i = true) (hp : node.parent = some p) (hpi : p < i) :
    nodeAt (SceneGraphSystem.run s) i =
      some
        { node with
          transform := node.transform.refresh_world_matrix
            (some (worldGetD (SceneGraphSystem.run s) p)),
          dirtyTag := false } := by
  have hpm : parentOf s i = some p := by
    rw [parentOf, hnode]
    simpa using hp
  simp only [SceneGraphSystem.run, rootsLoop, childLoop]
  rw [passLoop_nodeAt_lt _ _ _ i hi]
  rw [if_pos (by simp [hmk, hpm])]
  have ht :
      nodeAt
        (passLoop (fun k => markedB s k && (parentOf s k).isSome) i
          (passLoop (fun k => markedB s k && (parentOf s k).isNone) s.size s))
        i = some node := by
    rw [passLoop_nodeAt_ge _ i _ i (Nat.le_refl i)]
    rw [passLoop_nodeAt_lt _ _ _ i hi]
    rw [if_neg (by simp [hpm])]
    exact hnode
  obtain ⟨pn, hpn⟩ :
      ∃ pn,
        nodeAt
          (passLoop (fun k => markedB s k && (parentOf s k).isSome) s.size
            (passLoop (fun k => markedB s k && (parentOf s k).isNone) s.size
              s)) p = some pn := by
    have hplen :
        p <
          (passLoop (fun k => markedB s k && (parentOf s k).isSome) s.size
            (passLoop (fun k => markedB s k && (parentOf s k).isNone) s.size
              s)).length := by
      rw [passLoop_length, passLoop_length]
      exact Nat.lt_trans hpi hi
    exact ⟨_, List.getElem?_eq_getElem hplen⟩
  have hstab :
      nodeAt
        (passLoop (fun k => markedB s k && (parentOf s k).isSome) i
          (passLoop (fun k => markedB s k && (parentOf s k).isNone) s.size s))
        p = some pn := by
    have h₁ :=
      passLoop_nodeAt_lt (fun k => markedB s k && (parentOf s k).isSome) i
        (passLoop (fun k => markedB s k && (parentOf s k).isNone) s.size s) p
        hpi
    have h₂ :=
      passLoop_nodeAt_lt (fun k => markedB s k && (parentOf s k).isSome)
        s.size
        (passLoop (fun k => markedB s k && (parentOf s k).isNone) s.size s) p
        (Nat.lt_trans hpi hi)
    rw [h₁, ← h₂]
    exact hpn
  rw [nodeAt_refreshAt_self _ i node ht, hp]
  show
    some
        (SceneNode.mk
          (node.transform.refresh_world_matrix
            (match
              nodeAt
                (passLoop (fun k => markedB s k && (parentOf s k).isSome) i
                  (passLoop (fun k => markedB s k && (parentOf s k).isNone)
                    s.size s)) p with
             | some parent_node => some parent_node.transform.world_matrix
             | none => none))
          (some p) node.enabled false) =
      some
        (SceneNode.mk
          (node.transform.refresh_world_matrix
            (some
              (worldGetD
                (passLoop (fun k => markedB s k && (parentOf s k).isSome)
                  s.size
                  (passLoop (fun k => markedB s k && (parentOf s k).isNone)
                    s.size s)) p)))
          (some p) node.enabled false)
  rw [hstab]
  have hw :
      worldGetD
        (passLoop (fun k => markedB s k && (parentOf s k).isSome) s.size
          (passLoop (fun k => markedB s k && (parentOf s k).isNone) s.size s))
        p = pn.transform.world_matrix := by
    rw [worldGetD, hpn]
    rfl
  rw [hw]

/-- C1: on a well-formed scene in steady state (no transform dirty, no
`DirtyTransform` tag), setting a local translation, rotation or scale on an
enabled entity `n` and running one scene-graph pass leaves every node that
is neither `n` nor a descendant of `n` entirely untouched, while `n` and
each of its descendants is recomputed to (resulting world matrix of its
parent) * (its local TRS matrix — updated at `n`, unchanged elsewhere), or
just its local matrix for a root, with both dirty marks cleared.  Since the
ancestors of `n` are untouched, the recomputed world matrices are exactly
the composition of the unchanged ancestor chain with the updated local TRS
matrices. -/
theorem scene_graph_dirty_propagation (s₀ : Scene) (n : Nat) (op : SetOp)
    (hwf : wellFormedB s₀ = true) (hclean : allCleanB s₀ = true)
    (hn : n < s₀.size) (hen : enabledAt s₀ n = true) :
    ∀ i, i < s₀.size →
      (affectedB s₀ n i = false →
        nodeAt (SceneGraphSystem.run (setLocalTRS s₀ n op)) i = nodeAt s₀ i) ∧
      (affectedB s₀ n i = true →
        nodeAt (SceneGraphSystem.run (setLocalTRS s₀ n op)) i =
          (nodeAt (setLocalTRS s₀ n op) i).map fun node =>
            { node with
              transform :=
                { node.transform with
                  world_matrix :=
                    match parentOf s₀ i with
                    | some p =>
                        (worldGetD
                            (SceneGraphSystem.run (setLocalTRS s₀ n op))
                            p).mul node.transform.localMatrix
                    | none => node.transform.localMatrix,
                  dirty := false },
              dirtyTag := false }) := by
  intro i hi
  have hwfP₀ : wfP s₀ := wellFormed_wfP hwf
  have hpm : ∀ j, parentOf (setLocalTRS s₀ n op) j = parentOf s₀ j :=
    parentOf_setLocalTRS s₀ n op
  have hmk : ∀ j, markedB (setLocalTRS s₀ n op) j = affectedB s₀ n j :=
    markedB_setLocalTRS hclean hn hen
  have hlenN : (setLocalTRS s₀ n op).length = s₀.length :=
    length_setLocalTRS s₀ n op
  have hiN : i < (setLocalTRS s₀ n op).size := by
    show i < (setLocalTRS s₀ n op).length
    rw [hlenN]
    exact hi
  constructor
  · intro haff
    have hmki : markedB (setLocalTRS s₀ n op) i = false := by
      rw [hmk i]
      exact haff
    rw [run_nodeAt_unmarked _ i hiN hmki]
    have hne : i ≠ n := by
      intro hin
      rw [affectedB, hin] at haff
      simp at haff
    exact nodeAt_setNodeAt_ne s₀ n _ i hne
  · intro haff
    have hmki : markedB (setLocalTRS s₀ n op) i = true := by
      rw [hmk i]
      exact haff
    obtain ⟨node, hnode⟩ :
        ∃ node, nodeAt (setLocalTRS s₀ n op) i = some node :=
      ⟨_, List.getElem?_eq_getElem hiN⟩
    have hpar : node.parent = parentOf s₀ i := by
      rw [← hpm i, parentOf, hnode]
      rfl
    cases hp : parentOf s₀ i with
    | none =>
        have hpn : node.parent = none := by rw [hpar, hp]
        rw [run_nodeAt_marked_root _ i node hiN hnode hmki hpn, hnode]
        simp [Transform.refresh_world_matrix]
    | some p =>
        have hpn : node.parent = some p := by rw [hpar, hp]
        have hpi : p < i := hwfP₀ i p hp
        rw [run_nodeAt_marked_child _ i node p hiN hnode hmki hpn hpi, hnode]
        simp [Transform.refresh_world_matrix]

/-- A resolved transform with identity TRS, used by the C1 witness. -/
def cleanTransform : Transform :=
  ⟨⟨0, 0, 0⟩, Quat.id, ⟨1, 1, 1⟩, Mat4.identity, false⟩

/-- A three-node chain root → node 1 → node 2, all enabled and clean. -/
def witnessScene : Scene :=
  [⟨cleanTransform, none, true, false⟩,
   ⟨cleanTransform, some 0, true, false⟩,
   ⟨cleanTransform, some 1, true, false⟩]

/-- Witness for C1: in the three-node chain, setting a translation on
entity 1 and running the pass recomputes the grandchild 2 from its parent's
resulting world matrix and its own unchanged local matrix. -/
theorem scene_graph_dirty_propagation_witness :
    (wellFormedB witnessScene = true ∧ allCleanB witnessScene = true ∧
        1 < witnessScene.size ∧ enabledAt witnessScene 1 = true ∧
          2 < witnessScene.size ∧ affectedB witnessScene 1 2 = true) ∧
      nodeAt
          (SceneGraphSystem.run
            (setLocalTRS witnessScene 1 (SetOp.translation ⟨1, 2, 3⟩))) 2 =
        (nodeAt (setLocalTRS witnessScene 1 (SetOp.translation ⟨1, 2, 3⟩))
            2).map fun node =>
          { node with
            transform :=
              { node.transform with
                world_matrix :=
                  match parentOf witnessScene 2 with
                  | some p =>
                      (worldGetD
                          (SceneGraphSystem.run
                            (setLocalTRS witnessScene 1
                              (SetOp.translation ⟨1, 2, 3⟩))) p).mul
                        node.transform.localMatrix
                  | none => node.transform.localMatrix,
                dirty := false },
            dirtyTag := false } :=
  ⟨⟨by decide, by decide, by decide, by decide, by decide, by decide⟩,
    ((scene_graph_dirty_propagation witnessScene 1
          (SetOp.translation ⟨1, 2, 3⟩) (by decide) (by decide) (by decide)
          (by decide)) 2 (by decide)).2 (by decide)⟩

/-! ### Theorems for the lighting system (claims about ambient merging and
light classification) -/

/-- Ambient light entity A of property P4: color (1,0,0), intensity 2. -/
def ambientEntityA : LightEntity :=
  ⟨⟨⟨1, 0, 0⟩, 2, 0⟩, none, none, none⟩

/-- Ambient light entity B of property P4: color (0,1,0), intensity 1. -/
def ambientEntityB : LightEntity :=
  ⟨⟨⟨0, 1, 0⟩, 1, 0⟩, none, none, none⟩

/-- C2 counterexample: with A processed before B, the accumulation rule
`merged.color = merged.color*merged.intensity + light.color*light.intensity`
yields merged color (4,1,0), not the order-independent (2,1,0) the claim
states. -/
theorem ambient_merge_order_dependent_counterexample :
    (LightingSystem.run [ambientEntityA, ambientEntityB]).ambiant.map
        Light.color = some ⟨4, 1, 0⟩ ∧
      (LightingSystem.run [ambientEntityA, ambientEntityB]).ambiant.map
          Light.color ≠ some ⟨2, 1, 0⟩ := by
  constructor
  · norm_num [LightingSystem.run, lightStep, ambientEntityA, ambientEntityB,
      LightRepository.empty, Vec3.smul, Vec3.add]
  · norm_num [LightingSystem.run, lightStep, ambientEntityA, ambientEntityB,
      LightRepository.empty, Vec3.smul, Vec3.add]

/-- C2 amended: the merged ambient intensity is 3 in either processing
order, but the merged color is order-dependent: (4,1,0) when A(color (1,0,0),
intensity 2) is processed before B(color (0,1,0), intensity 1), and (2,1,0)
when B is processed before A. -/
theorem ambient_merge_amended :
    (LightingSystem.run [ambientEntityA, ambientEntityB]).ambiant =
        some ⟨⟨4, 1, 0⟩, 3, 0⟩ ∧
      (LightingSystem.run [ambientEntityB, ambientEntityA]).ambiant =
        some ⟨⟨2, 1, 0⟩, 3, 0⟩ := by
  constructor
  · norm_num [LightingSystem.run, lightStep, ambientEntityA, ambientEntityB,
      LightRepository.empty, Vec3.smul, Vec3.add]
  · norm_num [LightingSystem.run, lightStep, ambientEntityA, ambientEntityB,
      LightRepository.empty, Vec3.smul, Vec3.add]

/-- An enabled light-bearing entity carrying only a `Cone` (no direction, no
transform). -/
def coneOnlyEntity : LightEntity :=
  ⟨⟨⟨1, 1, 1⟩, 5, 0⟩, none, none, some ⟨1, 2⟩⟩

/-- C4 counterexample: an enabled light entity with a cone but neither
direction nor transform falls through every branch of the classification
chain, so one lighting pass over it leaves the repository completely empty —
the light lands in none of the four categories. -/
theorem light_classification_counterexample :
    LightingSystem.run [coneOnlyEntity] = LightRepository.empty := by
  rfl

/-- C4 amended: the classification is directional iff direction-and-no-cone,
point iff transform-and-no-cone-and-no-direction, spot iff
direction-and-cone-and-transform, ambient iff no-component-at-all; an entity
carrying a cone but lacking direction or transform matches no branch and is
skipped, contributing to no category (each loop step grows exactly the list
selected by the classification and is a no-op for skipped entities). -/
theorem light_classification_amended (e : LightEntity) (acc : LightAccum) :
    (classifyLight e = LightClass.directional ↔
        e.direction.isSome ∧ e.cone.isNone) ∧
    (classifyLight e = LightClass.point ↔
        e.transform.isSome ∧ e.cone.isNone ∧ e.direction.isNone) ∧
    (classifyLight e = LightClass.spot ↔
        e.direction.isSome ∧ e.cone.isSome ∧ e.transform.isSome) ∧
    (classifyLight e = LightClass.ambient ↔
        e.transform.isNone ∧ e.cone.isNone ∧ e.direction.isNone) ∧
    (classifyLight e = LightClass.skipped ↔
        e.cone.isSome ∧ (e.direction.isNone ∨ e.transform.isNone)) ∧
    ((lightStep acc e).repo.directional.length =
        acc.repo.directional.length +
          (if classifyLight e = LightClass.directional then 1 else 0)) ∧
    ((lightStep acc e).repo.point.length =
        acc.repo.point.length +
          (if classifyLight e = LightClass.point then 1 else 0)) ∧
    ((lightStep acc e).repo.spot.length =
        acc.repo.spot.length +
          (if classifyLight e = LightClass.spot then 1 else 0)) ∧
    ((lightStep acc e).some_ambiant =
        (acc.some_ambiant ||
          decide (classifyLight e = LightClass.ambient))) ∧
    (classifyLight e = LightClass.skipped → lightStep acc e = acc) := by
  rcases e with ⟨light, dir, tr, cone⟩
  rcases dir with _ | d <;> rcases tr with _ | t <;> rcases cone with _ | c <;>
    simp [classifyLight, lightStep]

/-- Witness for the amended classification theorem at the cone-only entity:
it is classified as skipped and the loop step leaves the state unchanged. -/
theorem light_classification_amended_witness :
    lightStep ⟨LightRepository.empty, ⟨⟨0, 0, 0⟩, 0, 0⟩, false⟩
        coneOnlyEntity =
      ⟨LightRepository.empty, ⟨⟨0, 0, 0⟩, 0, 0⟩, false⟩ :=
  (light_classification_amended coneOnlyEntity
      ⟨LightRepository.empty, ⟨⟨0, 0, 0⟩, 0, 0⟩, false⟩).2.2.2.2.2.2.2.2.2
    (by decide)

/-! ### Theorem for C9: reading a world matrix on a dirty transform -/

/-- C9: `Transform::get_world_matrix` returns an explicit error whenever the
transform is dirty, and the cached world matrix exactly when it is clean. -/
theorem get_world_matrix_dirty_semantics (t : Transform) :
    (t.dirty = true →
        t.get_world_matrix =
          Except.error "Trying to get world matrix while it is dirty!") ∧
      (t.dirty = false → t.get_world_matrix = Except.ok t.world_matrix) := by
  constructor <;> intro h <;> simp [Transform.get_world_matrix, h]

/-- Witness for C9 at two concrete transforms, one dirty and one clean. -/
theorem get_world_matrix_dirty_semantics_witness :
    (Transform.new ⟨0, 0, 0⟩ Quat.id ⟨1, 1, 1⟩).get_world_matrix =
        Except.error "Trying to get world matrix while it is dirty!" ∧
      ((Transform.new ⟨0, 0, 0⟩ Quat.id ⟨1, 1, 1⟩).refresh_world_matrix
            none).get_world_matrix =
        Except.ok
          ((Transform.new ⟨0, 0, 0⟩ Quat.id
              ⟨1, 1, 1⟩).refresh_world_matrix none).world_matrix :=
  ⟨(get_world_matrix_dirty_semantics
        (Transform.new ⟨0, 0, 0⟩ Quat.id ⟨1, 1, 1⟩)).1 (by decide),
    (get_world_matrix_dirty_semantics
        ((Transform.new ⟨0, 0, 0⟩ Quat.id ⟨1, 1, 1⟩).refresh_world_matrix
          none)).2 (by decide)⟩

end Wtvr3d
